import Mathlib

/-!
Shallow embedding of `packages/firestore/exp/src/api/reference.ts`:
the public read/write/listen entry points of the Firestore exp API
(`getDoc`, `getDocFromCache`, `getDocFromServer`, `getDocs`,
`getDocsFromCache`, `getDocsFromServer`, `setDoc`, `updateDoc`,
`deleteDoc`, `addDoc`, `onSnapshot`, `onSnapshotsInSync`,
`executeWrite`, `convertToDocSnapshot`).

Collaborators that the file imports from elsewhere in the repository
(`validateHasExplicitOrderByForLimitToLast`, `parseSetData`,
`parseUpdateVarargs`, `AsyncObserver`, `syncEngineWrite`,
`Precondition`, `DeleteMutation`, `doc`, `_verifyNotTerminated`) are
modelled from the spec; each such definition carries a doc comment
saying so.

Synchronous control flow is embedded with `Except`: every entry point
returns `Except FirestoreError r` where `r` records the queue tasks the
call enqueued (in order) plus whatever the call hands back to the
caller.  This is faithful because in the source every synchronous throw
of each embedded function happens before every `enqueueAndForget` call
of that function, so an error result coincides with "nothing was
enqueued".  The asynchronous parts (promise continuations, listener
deliveries, the sync-engine settlement of a write's deferred cell) are
embedded as separate explicit functions on outcome/trace values.
-/

namespace FirestoreRef

/-- Error codes used by the embedded entry points
(`failed-precondition`, `invalid-argument`). -/
inductive FirestoreErrorCode
  | invalidArgument
  | failedPrecondition
deriving DecidableEq, Repr

/-- A user-facing `FirestoreError`: a code plus a message. -/
structure FirestoreError where
  code : FirestoreErrorCode
  message : String
deriving DecidableEq, Repr

/-- Modelled from the spec: the error thrown by
`FirebaseFirestore._verifyNotTerminated` ("state errors — client
already terminated; every public entry point checks this before enqueue
and fails fast").  The source file only calls the check; its body lives
in `exp/src/api/database.ts`, outside the embedded file. -/
def terminatedError : FirestoreError :=
  ⟨.failedPrecondition, "The client has already been terminated."⟩

/-- Modelled from the spec: the validation error thrown by
`validateHasExplicitOrderByForLimitToLast` for a last-N query without
an explicit order-by term. -/
def limitToLastOrderByError : FirestoreError :=
  ⟨.invalidArgument,
   "limitToLast() queries require specifying at least one orderBy() clause"⟩

/-- Modelled from the spec: validation error for an odd count of
trailing varargs in `updateDoc` ("rejects with a validation error
before enqueue ... if an odd count of trailing varargs is supplied"). -/
def oddUpdateArgsError : FirestoreError :=
  ⟨.invalidArgument,
   "updateDoc() needs to be called with an even number of arguments"⟩

/-- Modelled from the spec: validation error when zero field/value
pairs are given to the update parser ("rejects with a validation error
before enqueue if zero field/value pairs are given"). -/
def emptyUpdateArgsError : FirestoreError :=
  ⟨.invalidArgument,
   "updateDoc() needs at least one field/value pair"⟩

/-- Modelled from the spec: validation error when a field position of
the update varargs holds a value that is neither a field-path string
nor a FieldPath. -/
def fieldArgTypeError : FirestoreError :=
  ⟨.invalidArgument,
   "updateDoc() field arguments must be strings or FieldPath objects"⟩

/-- A fatal assertion failure (`debugAssert`): a programming-error
invariant violation, deliberately a different type from the user-facing
`FirestoreError`. -/
structure AssertionFailure where
  message : String
deriving DecidableEq, Repr

/-- The key of a document: its slash-separated path. -/
structure DocumentKey where
  path : List String
deriving DecidableEq, Repr

/-- User-level field values, enough to exercise the embedded
operations on concrete inputs. -/
inductive FsValue
  | int (n : Int)
  | str (s : String)
  | boolean (b : Bool)
deriving DecidableEq, Repr

/-- A parsed document shape: field names paired with values. -/
abbrev DocumentData := List (String × FsValue)

/-- A document held by the local cache, carrying the
`hasLocalMutations` flag the source reads in `getDocFromCache`. -/
structure Document where
  key : DocumentKey
  hasLocalMutations : Bool
  data : DocumentData
deriving DecidableEq, Repr

/-- `SnapshotMetadata` from `src/api/database.ts`: the constructor the
embedded file calls takes `hasPendingWrites` then `fromCache`. -/
structure SnapshotMetadata where
  hasPendingWrites : Bool
  fromCache : Bool
deriving DecidableEq, Repr

/-- The public `DocumentSnapshot` as the embedded file constructs it:
a key, the document when present, and metadata. -/
structure DocumentSnapshot where
  key : DocumentKey
  doc : Option Document
  metadata : SnapshotMetadata
deriving DecidableEq, Repr

/-- A view snapshot from the core layer: the result document set plus
the `hasPendingWrites` / `fromCache` provenance flags. -/
structure ViewSnapshot where
  docs : List Document
  hasPendingWrites : Bool
  fromCache : Bool
deriving DecidableEq, Repr

/-- Direction of an explicit order-by term. -/
inductive Direction
  | asc
  | desc
deriving DecidableEq, Repr

/-- An explicit order-by term of a query. -/
structure OrderBy where
  field : List String
  dir : Direction
deriving DecidableEq, Repr

/-- Whether a query limit counts from the first or the last result. -/
inductive LimitType
  | first
  | last
deriving DecidableEq, Repr

/-- The internal `Query` value (`src/core/query.ts`): a path plus
explicit order-by terms and a limit with its type. -/
structure InternalQuery where
  path : List String
  explicitOrderBy : List OrderBy
  limit : Option Nat
  limitType : LimitType
deriving DecidableEq, Repr

/-- Modelled from the spec: `newQueryForPath(path) -> Query` from the
query engine collaborator — a bare query over one path with no filter,
order or limit terms. -/
def newQueryForPath (path : List String) : InternalQuery :=
  ⟨path, [], none, LimitType.first⟩

/-- Modelled from the spec: a query is consumed as "last N" when it is
limit-based with limit type `last`. -/
def InternalQuery.hasLimitToLast (q : InternalQuery) : Bool :=
  match q.limitType, q.limit with
  | LimitType.last, some _ => true
  | _, _ => false

/-- Modelled from the spec: `validateHasExplicitOrderByForLimitToLast`
(from `src/api/database.ts`, outside the embedded file) — "a
limit-based query ordered by descending field and consumed as last N
must have an explicit matching ascending/descending order term;
absence is rejected before any network or cache access occurs". -/
def validateHasExplicitOrderByForLimitToLast (q : InternalQuery) :
    Except FirestoreError Unit :=
  if q.hasLimitToLast && q.explicitOrderBy.isEmpty then
    .error limitToLastOrderByError
  else
    .ok ()

/-- The public `Query` object; `query` embeds its `_query` field. -/
structure PublicQuery where
  query : InternalQuery
deriving DecidableEq, Repr

/-- The public `DocumentReference`; `key` embeds its `_key` field. -/
structure DocumentReference where
  key : DocumentKey
deriving DecidableEq, Repr

/-- The public `CollectionReference`: the collection's path. -/
structure CollectionReference where
  path : List String
deriving DecidableEq, Repr

/-- Modelled from the spec: `doc(collRef)` with no path argument —
the key factory allocates a fresh document key under the collection
("collision-free ID generation delegated to the key factory"); the
generated auto-ID is passed in explicitly here. -/
def docAuto (coll : CollectionReference) (autoId : String) :
    DocumentReference :=
  ⟨⟨coll.path ++ [autoId]⟩⟩

/-- Modelled from the spec: `Precondition` from `src/model/mutation.ts`
— none / must-exist / must-not-exist.  `exist b` embeds the source's
`Precondition.exists(b)`. -/
inductive Precondition
  | none
  | exist (mustExist : Bool)
deriving DecidableEq, Repr

/-- Modelled from the spec: a mutation — target key, operation kind
(set / patch of one field / delete), precondition. -/
inductive Mutation
  | set (key : DocumentKey) (data : DocumentData) (precondition : Precondition)
  | patch (key : DocumentKey) (fieldPath : List String) (value : FsValue)
      (precondition : Precondition)
  | delete (key : DocumentKey) (precondition : Precondition)
deriving DecidableEq, Repr

/-- The precondition a mutation carries. -/
def Mutation.precondition : Mutation → Precondition
  | .set _ _ p => p
  | .patch _ _ _ p => p
  | .delete _ p => p

/-- The target key of a mutation. -/
def Mutation.targetKey : Mutation → DocumentKey
  | .set k _ _ => k
  | .patch k _ _ _ => k
  | .delete k _ => k

/-- Modelled from the spec: the output of `parseSetData` — the parsed
document shape, turned into mutations by `toMutations`. -/
structure ParsedSetData where
  data : DocumentData
deriving DecidableEq, Repr

/-- Modelled from the spec: `parseSetData` parses the (converter- and
option-merged) user value into a document shape.  The converter is the
identity here (`applyFirestoreDataConverter` with a null converter
passes the value through). -/
def parseSetData (data : DocumentData) : ParsedSetData :=
  ⟨data⟩

/-- Modelled from the spec: `ParsedSetData.toMutations(key, precondition)`
— one set mutation carrying the given precondition. -/
def ParsedSetData.toMutations (p : ParsedSetData) (key : DocumentKey)
    (pre : Precondition) : List Mutation :=
  [.set key p.data pre]

/-- Modelled from the spec: the output of `parseUpdateVarargs` /
`parseUpdateData` — the parsed field updates, one per field/value
pair. -/
structure ParsedUpdateData where
  fieldUpdates : List (List String × FsValue)
deriving DecidableEq, Repr

/-- Modelled from the spec: `ParsedUpdateData.toMutations(key,
precondition)` — one field mutation per parsed field/value pair, each
carrying the given precondition. -/
def ParsedUpdateData.toMutations (p : ParsedUpdateData) (key : DocumentKey)
    (pre : Precondition) : List Mutation :=
  p.fieldUpdates.map fun fv => .patch key fv.1 fv.2 pre

/-- Splits a character list at dots, accumulating the current segment
in reverse; auxiliary to `fieldPathFromDotSeparatedString`. -/
def splitDotted : List Char → List Char → List String
  | [], cur => [String.mk cur.reverse]
  | c :: rest, cur =>
    if c = '.' then String.mk cur.reverse :: splitDotted rest []
    else splitDotted rest (c :: cur)

/-- Modelled from the spec: a dotted field-path string argument is
split on dots into path segments (so "a.b" names the nested field b
inside a). -/
def fieldPathFromDotSeparatedString (s : String) : List String :=
  splitDotted s.toList []

/-- Modelled from the spec: the pair-consuming loop of
`parseUpdateVarargs` — alternating field/value arguments; a leftover
single argument (odd count) is a validation error, and a field position
must hold a field-path string. -/
def parseUpdatePairs : List FsValue →
    Except FirestoreError (List (List String × FsValue))
  | [] => .ok []
  | [_] => .error oddUpdateArgsError
  | f :: v :: rest =>
    match f with
    | .str s =>
      match parseUpdatePairs rest with
      | .error e => .error e
      | .ok tail => .ok ((fieldPathFromDotSeparatedString s, v) :: tail)
    | _ => .error fieldArgTypeError

/-- Modelled from the spec: update-varargs parsing over the full
argument list — "rejects with a validation error before enqueue if
zero field/value pairs are given, or if an odd count of trailing
varargs is supplied". -/
def parseUpdateList (args : List FsValue) :
    Except FirestoreError ParsedUpdateData :=
  if args.isEmpty then .error emptyUpdateArgsError
  else
    match parseUpdatePairs args with
    | .error e => .error e
    | .ok updates => .ok ⟨updates⟩

/-- Modelled from the spec: `parseUpdateVarargs(dataReader, method,
key, field, value, moreFieldsAndValues)` — the source passes the first
field, its value, and the remaining varargs separately. -/
def parseUpdateVarargs (field : FsValue) (value : FsValue)
    (moreFieldsAndValues : List FsValue) :
    Except FirestoreError ParsedUpdateData :=
  parseUpdateList (field :: value :: moreFieldsAndValues)

/-- The `source` option of the internal listen options
(`default` / `server` / `cache`). -/
inductive Source
  | default
  | server
deriving DecidableEq, Repr

/-- The internal listen options handed to `QueryListener`:
`includeMetadataChanges` is the (possibly absent) flag copied from the
public options object. -/
structure ListenOptions where
  includeMetadataChanges : Option Bool
deriving DecidableEq, Repr

/-- One task placed on the serialized operation queue by
`enqueueAndForget`, named after the collaborator call the task's body
performs. -/
inductive QueueTask
  | readDocumentViaSnapshotListener (key : DocumentKey) (source : Source)
  | readDocumentFromCache (key : DocumentKey)
  | executeQueryViaSnapshotListener (q : InternalQuery) (source : Source)
  | executeQueryFromCache (q : InternalQuery)
  | syncEngineWrite (mutations : List Mutation)
  | eventManagerListen (q : InternalQuery) (options : ListenOptions)
  | eventManagerUnlisten (q : InternalQuery)
  | addSnapshotsInSyncListener
  | removeSnapshotsInSyncListener
deriving DecidableEq, Repr

/-- The owning client (`FirebaseFirestore`), reduced to the state the
embedded entry points consult: whether it has been terminated. -/
structure FirestoreClient where
  terminated : Bool
deriving DecidableEq, Repr

/-- Modelled from the spec: `_verifyNotTerminated` throws the
terminated-state error when the client is already terminated. -/
def verifyNotTerminated (fs : FirestoreClient) :
    Except FirestoreError Unit :=
  if fs.terminated then .error terminatedError else .ok ()

/-- `getDoc(reference)`: verify not terminated, then enqueue one task
reading the document via a snapshot listener with source `default`. -/
def getDoc (fs : FirestoreClient) (ref : DocumentReference) :
    Except FirestoreError (List QueueTask) :=
  match verifyNotTerminated fs with
  | .error e => .error e
  | .ok _ =>
    .ok [QueueTask.readDocumentViaSnapshotListener ref.key Source.default]

/-- `getDocFromCache(reference)`: verify not terminated, then enqueue
one task reading the document from the local cache. -/
def getDocFromCache (fs : FirestoreClient) (ref : DocumentReference) :
    Except FirestoreError (List QueueTask) :=
  match verifyNotTerminated fs with
  | .error e => .error e
  | .ok _ => .ok [QueueTask.readDocumentFromCache ref.key]

/-- The continuation `getDocFromCache` chains onto the deferred result
(`deferred.promise.then(doc => new DocumentSnapshot(..., new
SnapshotMetadata(doc instanceof Document ? doc.hasLocalMutations :
false, true), ...))`). -/
def getDocFromCacheContinuation (ref : DocumentReference)
    (doc : Option Document) : DocumentSnapshot :=
  { key := ref.key
    doc := doc
    metadata :=
      ⟨match doc with
        | some d => d.hasLocalMutations
        | none => false,
       true⟩ }

/-- `getDocFromServer(reference)`: like `getDoc` with source
`server`. -/
def getDocFromServer (fs : FirestoreClient) (ref : DocumentReference) :
    Except FirestoreError (List QueueTask) :=
  match verifyNotTerminated fs with
  | .error e => .error e
  | .ok _ =>
    .ok [QueueTask.readDocumentViaSnapshotListener ref.key Source.server]

/-- `getDocs(query)`: verify not terminated, validate the explicit
order-by requirement for limit-to-last, then enqueue one task executing
the query via a snapshot listener with source `default`. -/
def getDocs (fs : FirestoreClient) (q : PublicQuery) :
    Except FirestoreError (List QueueTask) :=
  match verifyNotTerminated fs with
  | .error e => .error e
  | .ok _ =>
    match validateHasExplicitOrderByForLimitToLast q.query with
    | .error e => .error e
    | .ok _ =>
      .ok [QueueTask.executeQueryViaSnapshotListener q.query Source.default]

/-- `getDocsFromCache(query)`: verify not terminated, then enqueue one
task executing the query against the local cache.  The source performs
no limit-to-last order-by validation here. -/
def getDocsFromCache (fs : FirestoreClient) (q : PublicQuery) :
    Except FirestoreError (List QueueTask) :=
  match verifyNotTerminated fs with
  | .error e => .error e
  | .ok _ => .ok [QueueTask.executeQueryFromCache q.query]

/-- `getDocsFromServer(query)`: verify not terminated, then enqueue
one task executing the query via a snapshot listener with source
`server`.  The source performs no limit-to-last order-by validation
here. -/
def getDocsFromServer (fs : FirestoreClient) (q : PublicQuery) :
    Except FirestoreError (List QueueTask) :=
  match verifyNotTerminated fs with
  | .error e => .error e
  | .ok _ =>
    .ok [QueueTask.executeQueryViaSnapshotListener q.query Source.server]

/-- `executeWrite(firestore, mutations)`: enqueue exactly one task that
hands the mutations to `syncEngineWrite` together with the caller's
deferred cell, and give the deferred promise back to the caller. -/
def executeWrite (mutations : List Mutation) : List QueueTask :=
  [QueueTask.syncEngineWrite mutations]

/-- `setDoc(reference, data, options)`: verify not terminated, convert
and parse the data, then `executeWrite` with the parsed mutations
carrying `Precondition.none()`. -/
def setDoc (fs : FirestoreClient) (ref : DocumentReference)
    (data : DocumentData) : Except FirestoreError (List QueueTask) :=
  match verifyNotTerminated fs with
  | .error e => .error e
  | .ok _ =>
    let parsed := parseSetData data
    .ok (executeWrite (parsed.toMutations ref.key Precondition.none))

/-- `updateDoc(reference, field, value, ...moreFieldsAndValues)` — the
varargs overload: verify not terminated, parse the varargs, then
`executeWrite` with the parsed mutations carrying
`Precondition.exists(true)`. -/
def updateDoc (fs : FirestoreClient) (ref : DocumentReference)
    (field : FsValue) (value : FsValue) (moreFieldsAndValues : List FsValue) :
    Except FirestoreError (List QueueTask) :=
  match verifyNotTerminated fs with
  | .error e => .error e
  | .ok _ =>
    match parseUpdateVarargs field value moreFieldsAndValues with
    | .error e => .error e
    | .ok parsed =>
      .ok (executeWrite (parsed.toMutations ref.key (Precondition.exist true)))

/-- `deleteDoc(reference)`: verify not terminated, then `executeWrite`
with a single `DeleteMutation(key, Precondition.none())`. -/
def deleteDoc (fs : FirestoreClient) (ref : DocumentReference) :
    Except FirestoreError (List QueueTask) :=
  match verifyNotTerminated fs with
  | .error e => .error e
  | .ok _ =>
    .ok (executeWrite [Mutation.delete ref.key Precondition.none])

/-- `addDoc(collection, data)`: verify not terminated, allocate a
fresh document reference via the key factory, parse the data, then
`executeWrite` with mutations carrying `Precondition.exists(false)`;
the ok result also hands back the generated reference, whose delivery
to the caller is deferred by `addDocPromise`. -/
def addDoc (fs : FirestoreClient) (coll : CollectionReference)
    (data : DocumentData) (autoId : String) :
    Except FirestoreError (DocumentReference × List QueueTask) :=
  match verifyNotTerminated fs with
  | .error e => .error e
  | .ok _ =>
    let docRef := docAuto coll autoId
    let parsed := parseSetData data
    let mutations := parsed.toMutations docRef.key (Precondition.exist false)
    .ok (docRef, executeWrite mutations)

/-- How far a write task has progressed: merely enqueued, applied to
the local cache optimistically, or settled by the remote commit
channel with an ack or an error. -/
inductive WriteProgress
  | enqueued
  | locallyApplied
  | remoteSettled (result : Except FirestoreError Unit)
deriving Repr

/-- Modelled from the spec: `syncEngineWrite(syncEngine, mutations,
deferred)` settles the caller's deferred cell when the remote commit is
acknowledged or fails — not when the local optimistic apply completes.
`none` is a still-pending deferred cell. -/
def writeDeferredState (progress : WriteProgress) :
    Option (Except FirestoreError Unit) :=
  match progress with
  | .enqueued => none
  | .locallyApplied => none
  | .remoteSettled r => some r

/-- The continuation `addDoc` chains onto `executeWrite`
(`executeWrite(firestore, mutations).then(() => docRef)`): the caller's
promise stays pending while the write's deferred cell is pending,
resolves with the generated reference on success, and rejects with the
write's error on failure. -/
def addDocPromise (docRef : DocumentReference)
    (writeOutcome : Option (Except FirestoreError Unit)) :
    Option (Except FirestoreError DocumentReference) :=
  match writeOutcome with
  | none => none
  | some (.ok _) => some (.ok docRef)
  | some (.error e) => some (.error e)

/-- The public `SnapshotListenOptions` object: its
`includeMetadataChanges` field is optional. -/
structure SnapshotListenOptions where
  includeMetadataChanges : Option Bool
deriving DecidableEq, Repr

/-- One element of `onSnapshot`'s untyped trailing `args` array, as the
overload-normalization code classifies it: a plain options object, a
partial-observer object (`isPartialObserver` holds), or a bare callback
function. -/
inductive OnSnapshotArg
  | options (o : SnapshotListenOptions)
  | observer
  | callback
deriving DecidableEq, Repr

/-- Whether `args[0]` is an options object, which in the source is
`typeof args[0] === 'object' && !isPartialObserver(args[0])` (a
partial-observer object or a function is not options). -/
def hasLeadingOptions : List OnSnapshotArg → Bool
  | OnSnapshotArg.options _ :: _ => true
  | _ => false

/-- The argument-normalization prefix of `onSnapshot`: `options` starts
as the literal `includeMetadataChanges: false` object and is replaced
by `args[0]` exactly when that is an options object. -/
def parseListenOptions (args : List OnSnapshotArg) : SnapshotListenOptions :=
  match args with
  | OnSnapshotArg.options o :: _ => o
  | _ => ⟨some false⟩

/-- `onSnapshot` on a `DocumentReference`: normalize the arguments,
build the internal query for the document's path, verify not
terminated, then enqueue one `eventManagerListen` task carrying the
internal options. -/
def onSnapshotDoc (fs : FirestoreClient) (ref : DocumentReference)
    (args : List OnSnapshotArg) :
    Except FirestoreError (ListenOptions × List QueueTask) :=
  let options := parseListenOptions args
  let internalOptions : ListenOptions := ⟨options.includeMetadataChanges⟩
  let internalQuery := newQueryForPath ref.key.path
  match verifyNotTerminated fs with
  | .error e => .error e
  | .ok _ =>
    .ok (internalOptions,
         [QueueTask.eventManagerListen internalQuery internalOptions])

/-- `onSnapshot` on a `Query`: normalize the arguments, validate the
explicit order-by requirement for limit-to-last (the source does this
inside the query branch, before `_verifyNotTerminated`), verify not
terminated, then enqueue one `eventManagerListen` task carrying the
internal options. -/
def onSnapshotQuery (fs : FirestoreClient) (q : PublicQuery)
    (args : List OnSnapshotArg) :
    Except FirestoreError (ListenOptions × List QueueTask) :=
  let options := parseListenOptions args
  let internalOptions : ListenOptions := ⟨options.includeMetadataChanges⟩
  match validateHasExplicitOrderByForLimitToLast q.query with
  | .error e => .error e
  | .ok _ =>
    match verifyNotTerminated fs with
    | .error e => .error e
    | .ok _ =>
      .ok (internalOptions,
           [QueueTask.eventManagerListen q.query internalOptions])

/-- `onSnapshotsInSync(firestore, arg)`: verify not terminated, then
enqueue one `addSnapshotsInSyncListener` task. -/
def onSnapshotsInSync (fs : FirestoreClient) :
    Except FirestoreError (List QueueTask) :=
  match verifyNotTerminated fs with
  | .error e => .error e
  | .ok _ => .ok [QueueTask.addSnapshotsInSyncListener]

/-- The caller-visible state of a registered listener: the mute flag of
its `AsyncObserver` wrapper and the queue of tasks behind it. -/
structure ListenerHandle where
  muted : Bool
  pendingTasks : List QueueTask
deriving DecidableEq, Repr

/-- The unsubscribe closure `onSnapshot` returns: it first calls
`wrappedObserver.mute()` synchronously, then enqueues the
`eventManagerUnlisten` task behind whatever is already queued. -/
def unsubscribeQuery (q : InternalQuery) (h : ListenerHandle) :
    ListenerHandle :=
  ⟨true, h.pendingTasks ++ [QueueTask.eventManagerUnlisten q]⟩

/-- The unsubscribe closure `onSnapshotsInSync` returns: mute first,
then enqueue `removeSnapshotsInSyncListener` behind the queue. -/
def unsubscribeSnapshotsInSync (h : ListenerHandle) : ListenerHandle :=
  ⟨true, h.pendingTasks ++ [QueueTask.removeSnapshotsInSyncListener]⟩

/-- An event in the life of one wrapped observer: a scheduled snapshot
delivery reaching the observer (tagged by a sequence number), or the
synchronous `mute()` performed by the unsubscribe closure. -/
inductive ListenerEvent
  | deliver (n : Nat)
  | unsubscribe
deriving DecidableEq, Repr

/-- Modelled from the spec: the `AsyncObserver` wrapper — every
scheduled delivery re-checks the mute flag at delivery time and is
dropped when the flag is set; `mute()` sets the flag and nothing ever
clears it.  `observerRun muted events` is the list of delivery tags
that actually invoke the user callback. -/
def observerRun (muted : Bool) : List ListenerEvent → List Nat
  | [] => []
  | ListenerEvent.deliver n :: rest =>
    if muted then observerRun muted rest else n :: observerRun muted rest
  | ListenerEvent.unsubscribe :: rest => observerRun true rest

/-- `convertToDocSnapshot(firestore, ref, snapshot)`: `debugAssert`
that the view snapshot holds at most one document (a violation is a
fatal assertion failure, not a user-facing `FirestoreError`), look the
referenced key up in the snapshot's document set, and build a
`DocumentSnapshot` with metadata
`SnapshotMetadata(snapshot.hasPendingWrites, snapshot.fromCache)`. -/
def convertToDocSnapshot (ref : DocumentReference)
    (snapshot : ViewSnapshot) :
    Except AssertionFailure DocumentSnapshot :=
  if snapshot.docs.length ≤ 1 then
    .ok
      { key := ref.key
        doc := snapshot.docs.find? fun d => d.key = ref.key
        metadata := ⟨snapshot.hasPendingWrites, snapshot.fromCache⟩ }
  else
    .error ⟨"Expected zero or a single result on a document-only query"⟩

/-- A live (non-terminated) client. -/
def fsLive : FirestoreClient := ⟨false⟩

/-- A client that has already been terminated. -/
def fsTerminated : FirestoreClient := ⟨true⟩

/-- A limit-to-last query without any explicit order-by term:
`queryLimitToLast(collection, 5)` with no `orderBy`. -/
def badLimitToLastQuery : InternalQuery :=
  ⟨["coll"], [], some 5, LimitType.last⟩

/-- The public query object wrapping `badLimitToLastQuery`. -/
def badQueryRef : PublicQuery := ⟨badLimitToLastQuery⟩

/-- A plain collection query with no limit, which passes the
limit-to-last validation. -/
def plainQuery : InternalQuery := ⟨["coll"], [], none, LimitType.first⟩

/-- The public query object wrapping `plainQuery`. -/
def plainQueryRef : PublicQuery := ⟨plainQuery⟩

/-- A sample document key. -/
def sampleKey : DocumentKey := ⟨["coll", "doc1"]⟩

/-- A sample document reference. -/
def sampleRef : DocumentReference := ⟨sampleKey⟩

/-- A sample collection reference. -/
def sampleColl : CollectionReference := ⟨["coll"]⟩

/-- A sample cached document with local mutations pending. -/
def sampleDoc : Document := ⟨sampleKey, true, [("x", FsValue.int 3)]⟩

/-- A second document under a different key. -/
def otherDoc : Document := ⟨⟨["coll", "doc2"]⟩, false, []⟩

/-- A view snapshot holding exactly one document. -/
def oneDocSnapshot : ViewSnapshot := ⟨[sampleDoc], true, false⟩

/-- A view snapshot holding two documents — a contract breach for a
document-keyed view. -/
def twoDocSnapshot : ViewSnapshot := ⟨[sampleDoc, otherDoc], false, true⟩

/-- A muted observer delivers nothing: the mute flag is never
cleared, and every delivery re-checks it. -/
theorem observerRun_muted (events : List ListenerEvent) :
    observerRun true events = [] := by
  induction events with
  | nil => rfl
  | cons e rest ih =>
    cases e with
    | deliver n => simp [observerRun, ih]
    | unsubscribe => simp [observerRun, ih]

/-- Deliveries scheduled after an unsubscribe event are all dropped:
the run of any event list with an unsubscribe in the middle equals the
run of the prefix alone. -/
theorem observerRun_unsub (m : Bool) (pre post : List ListenerEvent) :
    observerRun m (pre ++ ListenerEvent.unsubscribe :: post) =
      observerRun m pre := by
  induction pre generalizing m with
  | nil => simp [observerRun, observerRun_muted]
  | cons e rest ih =>
    cases e with
    | deliver n =>
      by_cases hm : m
      · simp [observerRun, hm, ih]
      · simp [observerRun, hm, ih]
    | unsubscribe => simp [observerRun, ih]

/-- C7: for every listener registered via `onSnapshot` or
`onSnapshotsInSync`, the returned unsubscribe closure sets the wrapped
observer's mute flag synchronously while the de-registration task is
only appended behind the already-queued tasks; a run of the observer
delivers zero callbacks after the unsubscribe event, even for
deliveries already scheduled, and a second unsubscribe event changes
nothing about the delivered callbacks. -/
theorem unsubscribe_mutes_synchronously (q : InternalQuery)
    (h : ListenerHandle) (m : Bool) (pre mid post : List ListenerEvent) :
    (unsubscribeQuery q h).muted = true ∧
    (unsubscribeQuery q h).pendingTasks =
      h.pendingTasks ++ [QueueTask.eventManagerUnlisten q] ∧
    (unsubscribeSnapshotsInSync h).muted = true ∧
    (unsubscribeSnapshotsInSync h).pendingTasks =
      h.pendingTasks ++ [QueueTask.removeSnapshotsInSyncListener] ∧
    observerRun m (pre ++ ListenerEvent.unsubscribe :: post) =
      observerRun m pre ∧
    observerRun m
        (pre ++ ListenerEvent.unsubscribe ::
          (mid ++ ListenerEvent.unsubscribe :: post)) =
      observerRun m pre :=
  ⟨rfl, rfl, rfl, rfl, observerRun_unsub m pre post,
   observerRun_unsub m pre (mid ++ ListenerEvent.unsubscribe :: post)⟩

/-- C8: `convertToDocSnapshot` fails with a fatal assertion failure —
a type distinct from the user-facing `FirestoreError` — exactly when
the view snapshot holds more than one document; otherwise it produces
a document snapshot for the referenced key whose document is looked up
by that key and whose metadata carries the snapshot's
`hasPendingWrites` and `fromCache` flags. -/
theorem convertToDocSnapshot_spec (ref : DocumentReference)
    (s : ViewSnapshot) :
    (s.docs.length > 1 →
      convertToDocSnapshot ref s =
        Except.error
          ⟨"Expected zero or a single result on a document-only query"⟩) ∧
    (s.docs.length ≤ 1 →
      convertToDocSnapshot ref s =
        Except.ok
          ⟨ref.key, s.docs.find? fun d => d.key = ref.key,
           ⟨s.hasPendingWrites, s.fromCache⟩⟩) ∧
    (∀ ds, convertToDocSnapshot ref s = Except.ok ds →
      ds.key = ref.key ∧
      ds.doc = (s.docs.find? fun d => d.key = ref.key) ∧
      ds.metadata.hasPendingWrites = s.hasPendingWrites ∧
      ds.metadata.fromCache = s.fromCache) := by
  refine ⟨?_, ?_, ?_⟩
  · intro hgt
    simp [convertToDocSnapshot, Nat.not_le.mpr hgt]
  · intro hle
    simp [convertToDocSnapshot, hle]
  · intro ds hds
    by_cases hle : s.docs.length ≤ 1
    · simp [convertToDocSnapshot, hle] at hds
      subst hds
      exact ⟨rfl, rfl, rfl, rfl⟩
    · simp [convertToDocSnapshot, hle] at hds

/-- C8 witness: on a two-document view snapshot the conversion is a
fatal assertion failure; on a one-document snapshot it exposes the
document, the key and both metadata flags. -/
theorem convertToDocSnapshot_spec_witness :
    convertToDocSnapshot sampleRef twoDocSnapshot =
      Except.error
        ⟨"Expected zero or a single result on a document-only query"⟩ ∧
    convertToDocSnapshot sampleRef oneDocSnapshot =
      Except.ok
        ⟨sampleRef.key,
         oneDocSnapshot.docs.find? fun d => d.key = sampleRef.key,
         ⟨oneDocSnapshot.hasPendingWrites, oneDocSnapshot.fromCache⟩⟩ :=
  ⟨(convertToDocSnapshot_spec sampleRef twoDocSnapshot).1 (by decide),
   (convertToDocSnapshot_spec sampleRef oneDocSnapshot).2.1 (by decide)⟩

/-- C9: the snapshot `getDocFromCache` builds from the cached read
always carries `fromCache = true`, and `hasPendingWrites` equals the
cached document's `hasLocalMutations` flag when the document is
present and `false` when it is absent. -/
theorem getDocFromCache_metadata (ref : DocumentReference) :
    (∀ d : Document,
      (getDocFromCacheContinuation ref (some d)).metadata =
        ⟨d.hasLocalMutations, true⟩) ∧
    (getDocFromCacheContinuation ref none).metadata = ⟨false, true⟩ ∧
    (∀ doc : Option Document,
      (getDocFromCacheContinuation ref doc).metadata.fromCache = true) := by
  refine ⟨fun d => rfl, rfl, fun doc => ?_⟩
  cases doc <;> rfl

/-- C1 counterexample: on a live client, `getDocsFromCache` and
`getDocsFromServer` accept a limit-to-last query that has no explicit
order-by term — instead of rejecting, each enqueues its query task, so
not every query-reading entry point performs the validation. -/
theorem getDocsFromCache_accepts_unordered_limitToLast :
    badLimitToLastQuery.hasLimitToLast = true ∧
    badLimitToLastQuery.explicitOrderBy = [] ∧
    fsLive.terminated = false ∧
    getDocsFromCache fsLive badQueryRef =
      Except.ok [QueueTask.executeQueryFromCache badLimitToLastQuery] ∧
    getDocsFromServer fsLive badQueryRef =
      Except.ok [QueueTask.executeQueryViaSnapshotListener
        badLimitToLastQuery Source.server] :=
  ⟨rfl, rfl, rfl, rfl, rfl⟩

/-- C1 (amended): on a live client, `getDocs` and `onSnapshot` on a
query reject a limit-to-last query lacking an explicit order-by term
with the validation error synchronously, before any task is enqueued;
`getDocsFromCache` and `getDocsFromServer` do not perform this
validation. -/
theorem getDocs_limitToLast_rejects_before_enqueue
    (fs : FirestoreClient) (q : PublicQuery) (args : List OnSnapshotArg)
    (hterm : fs.terminated = false)
    (hlast : q.query.hasLimitToLast = true)
    (horder : q.query.explicitOrderBy = []) :
    getDocs fs q = Except.error limitToLastOrderByError ∧
    onSnapshotQuery fs q args = Except.error limitToLastOrderByError := by
  have hval : validateHasExplicitOrderByForLimitToLast q.query =
      Except.error limitToLastOrderByError := by
    simp [validateHasExplicitOrderByForLimitToLast, hlast, horder]
  constructor
  · simp [getDocs, verifyNotTerminated, hterm, hval]
  · simp [onSnapshotQuery, hval]

/-- C1 witness: the amended theorem applied to the live client and the
concrete unordered limit-to-last query. -/
theorem getDocs_limitToLast_rejects_witness :
    getDocs fsLive badQueryRef = Except.error limitToLastOrderByError ∧
    onSnapshotQuery fsLive badQueryRef [OnSnapshotArg.callback] =
      Except.error limitToLastOrderByError :=
  getDocs_limitToLast_rejects_before_enqueue fsLive badQueryRef
    [OnSnapshotArg.callback] rfl rfl rfl

/-- C2 counterexample: on an already-terminated client, `onSnapshot`
on a limit-to-last query lacking an order-by term throws the order-by
validation error, not the terminated-state error — the source runs the
query validation before `_verifyNotTerminated` in that branch. -/
theorem onSnapshot_terminated_throws_validation_first :
    fsTerminated.terminated = true ∧
    onSnapshotQuery fsTerminated badQueryRef [OnSnapshotArg.callback] =
      Except.error limitToLastOrderByError ∧
    limitToLastOrderByError ≠ terminatedError := by
  refine ⟨rfl, rfl, ?_⟩
  decide

/-- C2 (amended): on an already-terminated client, every public entry
point fails fast with an error before any task is enqueued; the error
is the terminated-state error for all of them, except that `onSnapshot`
on a query first runs the limit-to-last order-by validation and throws
its validation error instead when that fails — when the validation
passes, `onSnapshot` on a query also fails with the terminated-state
error. -/
theorem terminated_fails_fast_before_enqueue
    (fs : FirestoreClient) (ref : DocumentReference) (q : PublicQuery)
    (coll : CollectionReference) (data : DocumentData)
    (f v : FsValue) (more : List FsValue) (args : List OnSnapshotArg)
    (autoId : String) (hterm : fs.terminated = true) :
    getDoc fs ref = Except.error terminatedError ∧
    getDocFromCache fs ref = Except.error terminatedError ∧
    getDocFromServer fs ref = Except.error terminatedError ∧
    getDocs fs q = Except.error terminatedError ∧
    getDocsFromCache fs q = Except.error terminatedError ∧
    getDocsFromServer fs q = Except.error terminatedError ∧
    setDoc fs ref data = Except.error terminatedError ∧
    updateDoc fs ref f v more = Except.error terminatedError ∧
    deleteDoc fs ref = Except.error terminatedError ∧
    addDoc fs coll data autoId = Except.error terminatedError ∧
    onSnapshotDoc fs ref args = Except.error terminatedError ∧
    onSnapshotsInSync fs = Except.error terminatedError ∧
    (∃ e, onSnapshotQuery fs q args = Except.error e) ∧
    (validateHasExplicitOrderByForLimitToLast q.query = Except.ok () →
      onSnapshotQuery fs q args = Except.error terminatedError) := by
  have hv : verifyNotTerminated fs = Except.error terminatedError := by
    simp [verifyNotTerminated, hterm]
  refine ⟨?_, ?_, ?_, ?_, ?_, ?_, ?_, ?_, ?_, ?_, ?_, ?_, ?_, ?_⟩
  · simp [getDoc, hv]
  · simp [getDocFromCache, hv]
  · simp [getDocFromServer, hv]
  · simp [getDocs, hv]
  · simp [getDocsFromCache, hv]
  · simp [getDocsFromServer, hv]
  · simp [setDoc, hv]
  · simp [updateDoc, hv]
  · simp [deleteDoc, hv]
  · simp [addDoc, hv]
  · simp [onSnapshotDoc, hv]
  · simp [onSnapshotsInSync, hv]
  · cases hval : validateHasExplicitOrderByForLimitToLast q.query with
    | error e => exact ⟨e, by simp [onSnapshotQuery, hval]⟩
    | ok u => exact ⟨terminatedError, by simp [onSnapshotQuery, hval, hv]⟩
  · intro hval
    simp [onSnapshotQuery, hval, hv]

/-- C2 witness: the amended theorem applied to the terminated client
and concrete arguments; on the validation-passing plain query,
`onSnapshot` also reports the terminated-state error. -/
theorem terminated_fails_fast_witness :
    getDoc fsTerminated sampleRef = Except.error terminatedError ∧
    getDocs fsTerminated plainQueryRef = Except.error terminatedError ∧
    onSnapshotQuery fsTerminated plainQueryRef [OnSnapshotArg.callback] =
      Except.error terminatedError := by
  have h := terminated_fails_fast_before_enqueue fsTerminated sampleRef
    plainQueryRef sampleColl [] (FsValue.str "a") (FsValue.int 1) []
    [OnSnapshotArg.callback] "autoId1" rfl
  exact ⟨h.1, h.2.2.2.1, h.2.2.2.2.2.2.2.2.2.2.2.2.2 rfl⟩

/-- On an argument list of odd length the pair-consuming update parser
always fails with a validation (invalid-argument) error. -/
theorem parseUpdatePairs_odd :
    ∀ args : List FsValue, args.length % 2 = 1 →
      ∃ e, parseUpdatePairs args = Except.error e ∧
        e.code = FirestoreErrorCode.invalidArgument
  | [], h => by simp at h
  | [_], _ => ⟨oddUpdateArgsError, rfl, rfl⟩
  | f :: v :: rest, h => by
    have hr : rest.length % 2 = 1 := by
      simp [List.length_cons] at h
      omega
    cases f with
    | str s =>
      obtain ⟨e, he, hc⟩ := parseUpdatePairs_odd rest hr
      exact ⟨e, by simp [parseUpdatePairs, he], hc⟩
    | int n => exact ⟨fieldArgTypeError, rfl, rfl⟩
    | boolean b => exact ⟨fieldArgTypeError, rfl, rfl⟩

/-- C3: on a live client, `updateDoc(ref, "a.b", 1, "c", 2)` parses to
exactly two field mutations on the dotted keys a.b and c, each
carrying the must-exist precondition, enqueued as one write; every
varargs call whose trailing vararg count is odd rejects with a
validation error before any task is enqueued, and the update parser
rejects an empty field/value list. -/
theorem updateDoc_varargs_spec (fs : FirestoreClient)
    (ref : DocumentReference) (hterm : fs.terminated = false) :
    updateDoc fs ref (FsValue.str "a.b") (FsValue.int 1)
        [FsValue.str "c", FsValue.int 2] =
      Except.ok [QueueTask.syncEngineWrite
        [Mutation.patch ref.key ["a", "b"] (FsValue.int 1)
           (Precondition.exist true),
         Mutation.patch ref.key ["c"] (FsValue.int 2)
           (Precondition.exist true)]] ∧
    (∀ (f v : FsValue) (more : List FsValue), more.length % 2 = 1 →
      ∃ e, updateDoc fs ref f v more = Except.error e ∧
        e.code = FirestoreErrorCode.invalidArgument) ∧
    parseUpdateList [] = Except.error emptyUpdateArgsError := by
  have hp : parseUpdateVarargs (FsValue.str "a.b") (FsValue.int 1)
      [FsValue.str "c", FsValue.int 2] =
      Except.ok ⟨[(["a", "b"], FsValue.int 1), (["c"], FsValue.int 2)]⟩ := rfl
  refine ⟨?_, ?_, rfl⟩
  · simp [updateDoc, verifyNotTerminated, hterm, hp,
          ParsedUpdateData.toMutations, executeWrite]
  · intro f v more hodd
    have htot : (f :: v :: more).length % 2 = 1 := by
      simp [List.length_cons]
      omega
    obtain ⟨e, he, hc⟩ := parseUpdatePairs_odd _ htot
    refine ⟨e, ?_, hc⟩
    simp [updateDoc, verifyNotTerminated, hterm, parseUpdateVarargs,
          parseUpdateList, he]

/-- C3 witness: the theorem applied to the live client and the sample
reference, with the odd-vararg case `updateDoc(ref, "a", 1, "b")`. -/
theorem updateDoc_varargs_witness :
    updateDoc fsLive sampleRef (FsValue.str "a.b") (FsValue.int 1)
        [FsValue.str "c", FsValue.int 2] =
      Except.ok [QueueTask.syncEngineWrite
        [Mutation.patch sampleRef.key ["a", "b"] (FsValue.int 1)
           (Precondition.exist true),
         Mutation.patch sampleRef.key ["c"] (FsValue.int 2)
           (Precondition.exist true)]] ∧
    (∃ e, updateDoc fsLive sampleRef (FsValue.str "a") (FsValue.int 1)
        [FsValue.str "b"] = Except.error e ∧
      e.code = FirestoreErrorCode.invalidArgument) :=
  ⟨(updateDoc_varargs_spec fsLive sampleRef rfl).1,
   (updateDoc_varargs_spec fsLive sampleRef rfl).2.1
     (FsValue.str "a") (FsValue.int 1) [FsValue.str "b"] rfl⟩

/-- C4: on a live client, `addDoc` allocates the fresh key through the
key factory and bakes it into the single enqueued write, whose
mutation carries the must-not-exist precondition; the caller's promise
is still pending after the write is merely enqueued or locally
applied, resolves with the generated reference exactly when the remote
commit acknowledges, and rejects with the write's error — handing back
no reference — when the commit fails. -/
theorem addDoc_spec (fs : FirestoreClient) (coll : CollectionReference)
    (data : DocumentData) (autoId : String)
    (hterm : fs.terminated = false) :
    addDoc fs coll data autoId =
      Except.ok (docAuto coll autoId,
        [QueueTask.syncEngineWrite
          [Mutation.set (docAuto coll autoId).key data
             (Precondition.exist false)]]) ∧
    (docAuto coll autoId).key = ⟨coll.path ++ [autoId]⟩ ∧
    addDocPromise (docAuto coll autoId)
        (writeDeferredState WriteProgress.enqueued) = none ∧
    addDocPromise (docAuto coll autoId)
        (writeDeferredState WriteProgress.locallyApplied) = none ∧
    addDocPromise (docAuto coll autoId)
        (writeDeferredState (WriteProgress.remoteSettled (Except.ok ()))) =
      some (Except.ok (docAuto coll autoId)) ∧
    (∀ e, addDocPromise (docAuto coll autoId)
        (writeDeferredState (WriteProgress.remoteSettled (Except.error e))) =
      some (Except.error e)) := by
  refine ⟨?_, rfl, rfl, rfl, rfl, fun e => rfl⟩
  simp [addDoc, verifyNotTerminated, hterm, parseSetData,
        ParsedSetData.toMutations, executeWrite]

/-- C4 witness: the theorem applied to the live client, the sample
collection and a concrete generated ID. -/
theorem addDoc_spec_witness :
    addDoc fsLive sampleColl [("x", FsValue.int 3)] "gen1" =
      Except.ok (docAuto sampleColl "gen1",
        [QueueTask.syncEngineWrite
          [Mutation.set (docAuto sampleColl "gen1").key
             [("x", FsValue.int 3)] (Precondition.exist false)]]) ∧
    addDocPromise (docAuto sampleColl "gen1")
        (writeDeferredState (WriteProgress.remoteSettled (Except.ok ()))) =
      some (Except.ok (docAuto sampleColl "gen1")) :=
  ⟨(addDoc_spec fsLive sampleColl [("x", FsValue.int 3)] "gen1" rfl).1,
   (addDoc_spec fsLive sampleColl [("x", FsValue.int 3)] "gen1"
      rfl).2.2.2.2.1⟩

/-- C5: on a live client, `setDoc` enqueues the parsed data as
mutations all carrying precondition none, and `deleteDoc` enqueues
exactly one delete mutation for the referenced key carrying
precondition none. -/
theorem setDoc_deleteDoc_precondition_none (fs : FirestoreClient)
    (ref : DocumentReference) (data : DocumentData)
    (hterm : fs.terminated = false) :
    setDoc fs ref data =
      Except.ok [QueueTask.syncEngineWrite
        [Mutation.set ref.key data Precondition.none]] ∧
    (∀ m ∈ (parseSetData data).toMutations ref.key Precondition.none,
      m.precondition = Precondition.none) ∧
    deleteDoc fs ref =
      Except.ok [QueueTask.syncEngineWrite
        [Mutation.delete ref.key Precondition.none]] ∧
    (∀ m ∈ [Mutation.delete ref.key Precondition.none],
      m.precondition = Precondition.none) := by
  refine ⟨?_, ?_, ?_, ?_⟩
  · simp [setDoc, verifyNotTerminated, hterm, parseSetData,
          ParsedSetData.toMutations, executeWrite]
  · intro m hm
    simp [parseSetData, ParsedSetData.toMutations] at hm
    subst hm
    rfl
  · simp [deleteDoc, verifyNotTerminated, hterm, executeWrite]
  · intro m hm
    simp at hm
    subst hm
    rfl

/-- C5 witness: the theorem applied to the live client, the sample
reference and a concrete document shape. -/
theorem setDoc_deleteDoc_witness :
    setDoc fsLive sampleRef [("x", FsValue.int 3)] =
      Except.ok [QueueTask.syncEngineWrite
        [Mutation.set sampleRef.key [("x", FsValue.int 3)]
           Precondition.none]] ∧
    deleteDoc fsLive sampleRef =
      Except.ok [QueueTask.syncEngineWrite
        [Mutation.delete sampleRef.key Precondition.none]] :=
  ⟨(setDoc_deleteDoc_precondition_none fsLive sampleRef
      [("x", FsValue.int 3)] rfl).1,
   (setDoc_deleteDoc_precondition_none fsLive sampleRef
      [("x", FsValue.int 3)] rfl).2.2.1⟩

/-- C6: every write entry point funnels its mutations into
`executeWrite`, which enqueues exactly one sync-engine write task; the
write's deferred cell is still pending after enqueue and after the
local optimistic apply, and settles with exactly the remote commit
outcome. -/
theorem writes_funnel_executeWrite (fs : FirestoreClient)
    (ref : DocumentReference) (coll : CollectionReference)
    (data : DocumentData) (f v : FsValue) (more : List FsValue)
    (autoId : String) (hterm : fs.terminated = false) :
    setDoc fs ref data =
      Except.ok
        (executeWrite ((parseSetData data).toMutations ref.key
          Precondition.none)) ∧
    deleteDoc fs ref =
      Except.ok (executeWrite [Mutation.delete ref.key Precondition.none]) ∧
    (∀ parsed, parseUpdateVarargs f v more = Except.ok parsed →
      updateDoc fs ref f v more =
        Except.ok (executeWrite (parsed.toMutations ref.key
          (Precondition.exist true)))) ∧
    addDoc fs coll data autoId =
      Except.ok (docAuto coll autoId,
        executeWrite ((parseSetData data).toMutations
          (docAuto coll autoId).key (Precondition.exist false))) ∧
    (∀ ms, executeWrite ms = [QueueTask.syncEngineWrite ms] ∧
      (executeWrite ms).length = 1) ∧
    writeDeferredState WriteProgress.enqueued = none ∧
    writeDeferredState WriteProgress.locallyApplied = none ∧
    (∀ r, writeDeferredState (WriteProgress.remoteSettled r) = some r) := by
  refine ⟨?_, ?_, ?_, ?_, fun ms => ⟨rfl, rfl⟩, rfl, rfl, fun r => rfl⟩
  · simp [setDoc, verifyNotTerminated, hterm]
  · simp [deleteDoc, verifyNotTerminated, hterm]
  · intro parsed hp
    simp [updateDoc, verifyNotTerminated, hterm, hp]
  · simp [addDoc, verifyNotTerminated, hterm]

/-- C6 witness: the theorem applied to the live client and concrete
write arguments. -/
theorem writes_funnel_witness :
    setDoc fsLive sampleRef [("x", FsValue.int 3)] =
      Except.ok
        (executeWrite ((parseSetData [("x", FsValue.int 3)]).toMutations
          sampleRef.key Precondition.none)) ∧
    writeDeferredState WriteProgress.locallyApplied = none ∧
    writeDeferredState (WriteProgress.remoteSettled (Except.ok ())) =
      some (Except.ok ()) := by
  have h := writes_funnel_executeWrite fsLive sampleRef sampleColl
    [("x", FsValue.int 3)] (FsValue.str "a") (FsValue.int 1) []
    "autoId2" rfl
  exact ⟨h.1, h.2.2.2.2.2.2.1, h.2.2.2.2.2.2.2 (Except.ok ())⟩

/-- C10: when no options object is supplied, `onSnapshot` registers
the listener with the default `includeMetadataChanges: false`, for
both the document-reference and the query form. -/
theorem onSnapshot_default_includeMetadataChanges (fs : FirestoreClient)
    (ref : DocumentReference) (q : PublicQuery)
    (args : List OnSnapshotArg) (hterm : fs.terminated = false)
    (hopts : hasLeadingOptions args = false) :
    parseListenOptions args = ⟨some false⟩ ∧
    onSnapshotDoc fs ref args =
      Except.ok (⟨some false⟩,
        [QueueTask.eventManagerListen (newQueryForPath ref.key.path)
          ⟨some false⟩]) ∧
    (validateHasExplicitOrderByForLimitToLast q.query = Except.ok () →
      onSnapshotQuery fs q args =
        Except.ok (⟨some false⟩,
          [QueueTask.eventManagerListen q.query ⟨some false⟩])) := by
  have hp : parseListenOptions args = ⟨some false⟩ := by
    cases args with
    | nil => rfl
    | cons a rest =>
      cases a with
      | options o => simp [hasLeadingOptions] at hopts
      | observer => rfl
      | callback => rfl
  refine ⟨hp, ?_, ?_⟩
  · simp [onSnapshotDoc, verifyNotTerminated, hterm, hp]
  · intro hval
    simp [onSnapshotQuery, hval, verifyNotTerminated, hterm, hp]

/-- C10 witness: the theorem applied to the live client with a bare
callback argument and the plain (validation-passing) query. -/
theorem onSnapshot_default_options_witness :
    onSnapshotDoc fsLive sampleRef [OnSnapshotArg.callback] =
      Except.ok (⟨some false⟩,
        [QueueTask.eventManagerListen (newQueryForPath sampleRef.key.path)
          ⟨some false⟩]) ∧
    onSnapshotQuery fsLive plainQueryRef [OnSnapshotArg.callback] =
      Except.ok (⟨some false⟩,
        [QueueTask.eventManagerListen plainQueryRef.query ⟨some false⟩]) :=
  ⟨(onSnapshot_default_includeMetadataChanges fsLive sampleRef
      plainQueryRef [OnSnapshotArg.callback] rfl rfl).2.1,
   (onSnapshot_default_includeMetadataChanges fsLive sampleRef
      plainQueryRef [OnSnapshotArg.callback] rfl rfl).2.2 rfl⟩

end FirestoreRef
